import Mathlib

/-!
# Verification of chksync (folder comparison tool)

Shallow embedding of the core of `chksync.py` and `chksync_func.py`:

* `FolderScanner.scan_folder` / `_get_dir_size` / `_get_file_count`
  (directory scanning over a filesystem-tree model), and
* `ComparisonData.build_data` (chksync.py) and `build_comparison_data`
  (chksync_func.py), the merge/diff computation over two scan results.

Python strings are compared (by `sorted`) lexicographically by Unicode code
point, which for UTF-8 encoded names agrees with byte-wise comparison.  We
embed this order directly on `String.data` as an executable comparator, so
that all definitions evaluate by kernel reduction.
-/

/-- Code-point lexicographic strict order on character lists: the order that
Python's `<` induces on decoded strings (byte-wise order of their UTF-8
encodings). -/
def strLtB : List Char → List Char → Bool
  | [], [] => false
  | [], _ :: _ => true
  | _ :: _, [] => false
  | a :: as, b :: bs =>
      if a.toNat < b.toNat then true
      else if b.toNat < a.toNat then false
      else strLtB as bs

/-- Code-point lexicographic less-or-equal on character lists. -/
def strLeB : List Char → List Char → Bool
  | [], _ => true
  | _ :: _, [] => false
  | a :: as, b :: bs =>
      if a.toNat < b.toNat then true
      else if b.toNat < a.toNat then false
      else strLeB as bs

/-- Byte-wise (case-sensitive) order on entry names, as Python's `sorted` uses. -/
def NameLe (a b : String) : Prop := strLeB a.data b.data = true

/-- Byte-wise (case-sensitive) strict order on entry names. -/
def NameLt (a b : String) : Prop := strLtB a.data b.data = true

instance : DecidableRel NameLe := fun a b =>
  inferInstanceAs (Decidable (strLeB a.data b.data = true))

instance : DecidableRel NameLt := fun a b =>
  inferInstanceAs (Decidable (strLtB a.data b.data = true))

/-!
## Scan results

A Python `entries` dict maps an entry name to a `(size, filecount)` pair.
Directory listings have unique names, so we model the dict as an association
list with (in the intended use) pairwise-distinct keys, looked up by first
match; `d.get(name, (0, 0))` defaults to `(0, 0)`.
-/

/-- Model of the `entries` dict built by `scan_folder`: name to
`(size_this_item, filecount_this_item)`. -/
abbrev Entries : Type := List (String × (Nat × Nat))

instance : DecidableEq Entries := inferInstanceAs (DecidableEq (List (String × (Nat × Nat))))

/-- Python `entries.get(name, (0, 0))`. -/
def Entries.get (e : Entries) (name : String) : Nat × Nat :=
  match (show List (String × (Nat × Nat)) from e).find? (fun p => p.1 = name) with
  | some p => p.2
  | none => (0, 0)

/-- Python `entries.keys()`. -/
def Entries.keys (e : Entries) : List String :=
  (show List (String × (Nat × Nat)) from e).map Prod.fst

/-!
## Comparison data rows

`build_data` produces a list of Python dicts with keys
`Name, Size1, Size2, SD, Filecount1, Filecount2, CD, DIFF`.  Three shapes of
dict occur: per-name entry rows (`SD`/`CD`/`DIFF` are the strings
`'*'`/`''`/`'**'`), the decorative separator row of `chksync_func.py` (all
values are runs of `─` dashes), and the final `TOTAL` row (`SD`/`CD`/`DIFF`
are the numeric diff counters).  We model each dict shape as a constructor,
with fields in the dict's key order. -/
inductive DataRow where
  /-- Per-name row: `Name, Size1, Size2, SD, Filecount1, Filecount2, CD, DIFF`. -/
  | entry (name : String) (size1 size2 : Nat) (sd : String) (fc1 fc2 : Nat)
      (cd : String) (diff : String)
  /-- Decorative separator dict appended by `chksync_func.build_comparison_data`
  only (its values are fixed strings of `─` characters). -/
  | separator
  /-- The `TOTAL` row: `Size1, Size2, SD, Filecount1, Filecount2, CD, DIFF` hold
  `total_size1, total_size2, size_diff_count, total_fc1, total_fc2,
  file_diff_count, diff_count`. -/
  | total (size1 size2 : Nat) (sd : Nat) (fc1 fc2 : Nat) (cd : Nat) (diff : Nat)
deriving DecidableEq, Repr

/-- Name of a per-name row (`none` for the separator and `TOTAL` dicts, whose
`Name` values are the dash string and `"TOTAL"`). -/
def DataRow.entryName : DataRow → Option String
  | .entry name _ _ _ _ _ _ _ => some name
  | _ => none

/-- Spec-level `rowDiff` flag of a row: Python truthiness of the `DIFF` string
of a per-name row (the separator and `TOTAL` rows carry no such flag). -/
def DataRow.rowDiff : DataRow → Bool
  | .entry _ _ _ _ _ _ _ diff => diff ≠ ""
  | _ => false

/-- Whether a row is a per-name entry row. -/
def DataRow.isEntry : DataRow → Bool
  | .entry _ _ _ _ _ _ _ _ => true
  | _ => false

/-- Whether a row is the decorative separator row. -/
def DataRow.isSeparator : DataRow → Bool
  | .separator => true
  | _ => false

/-- Accumulator of the `for name in all_names` loop shared by
`ComparisonData.build_data` (chksync.py) and `build_comparison_data`
(chksync_func.py); fields in declaration order of the Python locals. -/
structure BuildState where
  data : List DataRow
  total_size1 : Nat
  total_size2 : Nat
  total_fc1 : Nat
  total_fc2 : Nat
  size_diff_count : Nat
  file_diff_count : Nat
  diff_count : Nat
deriving DecidableEq, Repr

/-- Initial accumulator (`data = []`, all counters `0`). -/
def initState : BuildState := ⟨[], 0, 0, 0, 0, 0, 0, 0⟩

/-- Loop body of `for name in all_names` (textually identical in
`ComparisonData.build_data` and `build_comparison_data`): look both sides up
with default `(0, 0)`, build the `'*'`/`'**'` markers, append the row unless
`only_diffs` filters it out (Python truthiness of the string `diff` is
`diff ≠ ""`), and accumulate the seven totals counters. -/
def step (entries1 entries2 : Entries) (only_diffs : Bool) (st : BuildState)
    (name : String) : BuildState :=
  let size1 := (Entries.get entries1 name).1
  let fc1 := (Entries.get entries1 name).2
  let size2 := (Entries.get entries2 name).1
  let fc2 := (Entries.get entries2 name).2
  let sizediff : String := if size1 ≠ size2 then "*" else ""
  let filediff : String := if fc1 ≠ fc2 then "*" else ""
  let diff : String := if fc1 ≠ fc2 ∨ size1 ≠ size2 then "**" else ""
  { data :=
      if only_diffs = false ∨ diff ≠ "" then
        st.data ++ [DataRow.entry name size1 size2 sizediff fc1 fc2 filediff diff]
      else st.data
    total_size1 := st.total_size1 + size1
    total_size2 := st.total_size2 + size2
    total_fc1 := st.total_fc1 + fc1
    total_fc2 := st.total_fc2 + fc2
    size_diff_count := if size1 ≠ size2 then st.size_diff_count + 1 else st.size_diff_count
    file_diff_count := if fc1 ≠ fc2 then st.file_diff_count + 1 else st.file_diff_count
    diff_count := if size1 ≠ size2 ∨ fc1 ≠ fc2 then st.diff_count + 1 else st.diff_count }

/-- Python `sorted(set(entries1.keys()) | set(entries2.keys()))`: the union of
the two key sets, sorted ascending by byte-wise string comparison.  (`dedup`
realises the set union; `sorted` orders by code points, which `NameLe`
embeds.) -/
def all_names (entries1 entries2 : Entries) : List String :=
  List.insertionSort NameLe (Entries.keys entries1 ++ Entries.keys entries2).dedup

/-- The body of `ComparisonData.build_data` (chksync.py, lines 221-277): run
the loop over `all_names`, then append the `TOTAL` row.  chksync.py appends
no separator row. -/
def ComparisonData.build_data (entries1 entries2 : Entries) (only_diffs : Bool) :
    List DataRow :=
  let st := (all_names entries1 entries2).foldl (step entries1 entries2 only_diffs) initState
  st.data ++ [DataRow.total st.total_size1 st.total_size2 st.size_diff_count
    st.total_fc1 st.total_fc2 st.file_diff_count st.diff_count]

/-- The body of `build_comparison_data` (chksync_func.py, lines 371-443): the
same loop, but chksync_func.py appends the decorative separator row and then
the `TOTAL` row. -/
def build_comparison_data (entries1 entries2 : Entries) (only_diffs : Bool) :
    List DataRow :=
  let st := (all_names entries1 entries2).foldl (step entries1 entries2 only_diffs) initState
  st.data ++ [DataRow.separator, DataRow.total st.total_size1 st.total_size2
    st.size_diff_count st.total_fc1 st.total_fc2 st.file_diff_count st.diff_count]

/-- The per-name row the loop body constructs for `name`. -/
def rowFor (e1 e2 : Entries) (name : String) : DataRow :=
  DataRow.entry name (Entries.get e1 name).1 (Entries.get e2 name).1
    (if (Entries.get e1 name).1 ≠ (Entries.get e2 name).1 then "*" else "")
    (Entries.get e1 name).2 (Entries.get e2 name).2
    (if (Entries.get e1 name).2 ≠ (Entries.get e2 name).2 then "*" else "")
    (if (Entries.get e1 name).2 ≠ (Entries.get e2 name).2 ∨
        (Entries.get e1 name).1 ≠ (Entries.get e2 name).1 then "**" else "")

/-- Whether `name`'s measurements differ between the two sides (the truthiness
of the row's `DIFF` string). -/
def nameDiff (e1 e2 : Entries) (name : String) : Bool :=
  decide ((Entries.get e1 name).2 ≠ (Entries.get e2 name).2 ∨
    (Entries.get e1 name).1 ≠ (Entries.get e2 name).1)

/-- Sum of `f` over a name list. -/
def sumBy (f : String → Nat) : List String → Nat
  | [] => 0
  | n :: ns => f n + sumBy f ns

/-- Number of names satisfying `p`. -/
def countBy (p : String → Bool) : List String → Nat
  | [] => 0
  | n :: ns => (if p n then 1 else 0) + countBy p ns

/-!
## Filesystem model and the scanner

`FolderScanner.scan_folder(folder)` iterates `os.scandir(folder)`; for a
regular first-level file it records `(entry.stat().st_size, 1)` (an `OSError`
from `stat` is caught and the entry skipped); for a first-level directory it
records `(_get_dir_size(path), _get_file_count(path))`; anything else
(symlinks of any kind, sockets, devices) hits the `else: continue` branch.
An error from `os.scandir(folder)` itself is not caught and propagates to
the caller.

Both `_get_dir_size` and `_get_file_count` drive `os.walk(path)` (top-down,
`followlinks=False`, `onerror=None`).  `os.walk` classifies each listed child
by `entry.is_dir()` (which follows symlinks): directories and symlinks to
directories go to `dirs`, everything else (regular files, symlinks to files,
broken symlinks, sockets, devices) goes to `files`; it then recurses into the
`dirs` members that are not symlinks, and silently skips a directory whose
own `scandir` fails.  `_get_file_count` sums `len(files)` over all yields;
`_get_dir_size` sums `os.path.getsize(fp)` (which follows symlinks) over all
members of all `files` lists, treating any exception as contributing 0.

The model: a node is a regular file (with its `st_size` and whether `stat`
succeeds), a directory (with named children and whether listing succeeds), a
symlink resolving to a directory, a symlink resolving to a regular file of a
given size, a broken symlink, or another entry kind with a given `st_size`.
Symlink targets lie outside the modelled tree (only the resolved target's
size is recorded), so a symlink passed as the scan root itself is outside
this model. -/
inductive FSNode where
  /-- Regular file; `statOk = false` means `stat`/`getsize` raises `OSError`. -/
  | file (size : Nat) (statOk : Bool)
  /-- Directory; `listOk = false` means `os.scandir` on it raises `OSError`. -/
  | dir (children : List (String × FSNode)) (listOk : Bool)
  /-- Symlink whose target resolves to a directory. -/
  | symlinkDir
  /-- Symlink whose target resolves to a regular file of size `targetSize`. -/
  | symlinkFile (targetSize : Nat)
  /-- Broken symlink: `stat` of the target fails. -/
  | symlinkBroken
  /-- Any other entry kind (socket, device, fifo) with its `st_size`. -/
  | other (size : Nat)

/-- Whether `os.walk` places this child in its `files` (non-directories) list:
everything whose `entry.is_dir()` (following symlinks) is false. -/
def isWalkNondir : FSNode → Bool
  | .file _ _ => true
  | .symlinkFile _ => true
  | .symlinkBroken => true
  | .other _ => true
  | .dir _ _ => false
  | .symlinkDir => false

/-- Size `os.path.getsize` contributes for a member of a `files` list inside
`_get_dir_size`: the `st_size` of the followed path, or 0 when the `try`
block catches the exception (unreadable file, broken symlink). -/
def sizeContrib : FSNode → Nat
  | .file size true => size
  | .file _ false => 0
  | .symlinkFile targetSize => targetSize
  | .symlinkBroken => 0
  | .other size => size
  | .dir _ _ => 0
  | .symlinkDir => 0

mutual
/-- Value of `_get_dir_size(folder)` (its first return component,
`total_size_this_folder`): the sum of `getsize` over every `files` member in
every directory `os.walk` visits.  `os.walk` yields nothing for a
non-directory or for a directory whose listing fails (`onerror=None`). -/
def dirSize : FSNode → Nat
  | .dir children true => dirSizeList children
  | _ => 0

/-- Walk contribution of a child list: each non-directory child contributes
its `getsize` (0 on error), each readable real subdirectory contributes its
own walk; symlinked directories are never recursed into. -/
def dirSizeList : List (String × FSNode) → Nat
  | [] => 0
  | (_, c) :: rest => sizeContrib c + dirSize c + dirSizeList rest
end

mutual
/-- Value of `_get_file_count(folder)` (its first return component,
`total_count_this_folder`): the sum of `len(files)` over every directory
`os.walk` visits.  Note this counts every `files` member - also unreadable
files, symlinks to files, broken symlinks and other non-directory kinds -
since `os.walk` lists them without `stat`-ing them. -/
def dirFileCount : FSNode → Nat
  | .dir children true => dirFileCountList children
  | _ => 0

/-- Walk count of a child list: each non-directory child counts 1, each
readable real subdirectory adds its own walk count. -/
def dirFileCountList : List (String × FSNode) → Nat
  | [] => 0
  | (_, c) :: rest => (if isWalkNondir c then 1 else 0) + dirFileCount c + dirFileCountList rest
end

/-- Whether the `for entry` loop of `scan_folder` skips this child via the
`else: continue` branch: neither `entry.is_file(follow_symlinks=False)` nor
`entry.is_dir(follow_symlinks=False)` holds, i.e. the child is a symlink (of
any kind) or another non-regular entry kind. -/
def firstLevelSkipped : FSNode → Bool
  | .file _ _ => false
  | .dir _ _ => false
  | _ => true

/-- Whether a first-level child produces a key in the returned dict: regular
files whose `stat` succeeds, and directories (readable or not - `os.walk`
absorbs listing errors, so an unreadable directory is recorded as `(0, 0)`,
not skipped). -/
def producesKey : FSNode → Bool
  | .file _ true => true
  | .file _ false => false
  | .dir _ _ => true
  | _ => false

/-- The `for entry in dir_entries` loop of `scan_folder`:
`entry.is_file(follow_symlinks=False)` selects exactly regular files (record
`(st_size, 1)`, or skip the entry when `entry.stat()` raises);
`entry.is_dir(follow_symlinks=False)` selects exactly real directories
(record `(_get_dir_size, _get_file_count)`; `os.walk` absorbs all errors);
every other kind hits `else: continue`.  (`os.scandir` yields each name once,
so key collisions in the dict do not arise.) -/
def scanChildren : List (String × FSNode) → Entries
  | [] => []
  | (name, c) :: rest =>
    match c with
    | .file size true => (name, (size, 1)) :: scanChildren rest
    | .file _ false => scanChildren rest
    | .dir cs b =>
        (name, (dirSize (.dir cs b), dirFileCount (.dir cs b))) :: scanChildren rest
    | _ => scanChildren rest

/-- Model of `FolderScanner.scan_folder(folder)`: `none` models the uncaught
exception from `os.scandir(folder)` (root missing, unreadable, or not a
directory) propagating to the caller; `some entries` is the returned dict.
The running verbose-progress counters are a print-only side channel and are
not modelled. -/
def FolderScanner.scan_folder : FSNode → Option Entries
  | .dir children true => some (scanChildren children)
  | _ => none

/-!
## Properties of the byte-wise name order
-/

theorem char_eq_of_toNat_eq {a b : Char} (h : a.toNat = b.toNat) : a = b :=
  Char.ext (UInt32.ext h)

theorem strLeB_cons (x y : Char) (as bs : List Char) :
    strLeB (x :: as) (y :: bs) = true ↔
      x.toNat < y.toNat ∨ (x.toNat = y.toNat ∧ strLeB as bs = true) := by
  simp only [strLeB]
  rcases Nat.lt_trichotomy x.toNat y.toNat with h | h | h
  · simp [h]
  · simp [h, Nat.lt_irrefl]
  · have h1 : ¬ x.toNat < y.toNat := by omega
    have h2 : x.toNat ≠ y.toNat := by omega
    simp [h, h1, h2]

theorem strLtB_cons (x y : Char) (as bs : List Char) :
    strLtB (x :: as) (y :: bs) = true ↔
      x.toNat < y.toNat ∨ (x.toNat = y.toNat ∧ strLtB as bs = true) := by
  simp only [strLtB]
  rcases Nat.lt_trichotomy x.toNat y.toNat with h | h | h
  · simp [h]
  · simp [h, Nat.lt_irrefl]
  · have h1 : ¬ x.toNat < y.toNat := by omega
    have h2 : x.toNat ≠ y.toNat := by omega
    simp [h, h1, h2]

theorem strLeB_total : ∀ a b : List Char, strLeB a b = true ∨ strLeB b a = true := by
  intro a
  induction a with
  | nil => intro b; left; cases b <;> rfl
  | cons x as ih =>
    intro b
    cases b with
    | nil => right; rfl
    | cons y bs =>
      rw [strLeB_cons, strLeB_cons]
      rcases Nat.lt_trichotomy x.toNat y.toNat with h | h | h
      · left; exact Or.inl h
      · rcases ih bs with h' | h'
        · exact Or.inl (Or.inr ⟨h, h'⟩)
        · exact Or.inr (Or.inr ⟨h.symm, h'⟩)
      · right; exact Or.inl h

theorem strLeB_trans : ∀ a b c : List Char,
    strLeB a b = true → strLeB b c = true → strLeB a c = true := by
  intro a
  induction a with
  | nil => intro b c _ _; cases c <;> rfl
  | cons x as ih =>
    intro b c hab hbc
    cases b with
    | nil => simp [strLeB] at hab
    | cons y bs =>
      cases c with
      | nil => simp [strLeB] at hbc
      | cons z cs =>
        rw [strLeB_cons] at hab hbc ⊢
        rcases hab with h1 | ⟨h1, h1'⟩ <;> rcases hbc with h2 | ⟨h2, h2'⟩
        · exact Or.inl (by omega)
        · exact Or.inl (by omega)
        · exact Or.inl (by omega)
        · exact Or.inr ⟨by omega, ih bs cs h1' h2'⟩

theorem strLeB_antisymm : ∀ a b : List Char,
    strLeB a b = true → strLeB b a = true → a = b := by
  intro a
  induction a with
  | nil =>
    intro b _ hba
    cases b with
    | nil => rfl
    | cons y bs => simp [strLeB] at hba
  | cons x as ih =>
    intro b hab hba
    cases b with
    | nil => simp [strLeB] at hab
    | cons y bs =>
      rw [strLeB_cons] at hab hba
      rcases hab with h1 | ⟨h1, h1'⟩ <;> rcases hba with h2 | ⟨h2, h2'⟩ <;>
        try omega
      rw [char_eq_of_toNat_eq h1, ih bs h1' h2']

theorem strLtB_of_leB_of_ne : ∀ a b : List Char,
    strLeB a b = true → a ≠ b → strLtB a b = true := by
  intro a
  induction a with
  | nil =>
    intro b _ hne
    cases b with
    | nil => exact absurd rfl hne
    | cons y bs => rfl
  | cons x as ih =>
    intro b hab hne
    cases b with
    | nil => simp [strLeB] at hab
    | cons y bs =>
      rw [strLeB_cons] at hab
      rw [strLtB_cons]
      rcases hab with h1 | ⟨h1, h1'⟩
      · exact Or.inl h1
      · refine Or.inr ⟨h1, ih bs h1' ?_⟩
        intro hrest
        exact hne (by rw [char_eq_of_toNat_eq h1, hrest])

theorem nameLe_total (a b : String) : NameLe a b ∨ NameLe b a :=
  strLeB_total a.data b.data

theorem nameLe_trans {a b c : String} (h1 : NameLe a b) (h2 : NameLe b c) : NameLe a c :=
  strLeB_trans a.data b.data c.data h1 h2

theorem nameLe_antisymm {a b : String} (h1 : NameLe a b) (h2 : NameLe b a) : a = b :=
  String.toList_inj.mp (strLeB_antisymm a.data b.data h1 h2)

theorem nameLt_of_le_of_ne {a b : String} (hle : NameLe a b) (hne : a ≠ b) : NameLt a b :=
  strLtB_of_leB_of_ne a.data b.data hle fun h => hne (String.toList_inj.mp h)

/-!
## Characterisation of the build loop
-/

theorem rowDiff_rowFor (e1 e2 : Entries) (name : String) :
    (rowFor e1 e2 name).rowDiff = nameDiff e1 e2 name := by
  by_cases h : (Entries.get e1 name).2 ≠ (Entries.get e2 name).2 ∨
      (Entries.get e1 name).1 ≠ (Entries.get e2 name).1 <;>
    simp [rowFor, nameDiff, DataRow.rowDiff, h]

/-- Closed form of the `for name in all_names` loop: the appended rows are the
filtered row list, and the seven counters are sums/counts over all names. -/
theorem foldl_step_eq (e1 e2 : Entries) (od : Bool) :
    ∀ (names : List String) (st : BuildState),
      names.foldl (step e1 e2 od) st = BuildState.mk
        (st.data ++ (names.filter (fun n => !od || nameDiff e1 e2 n)).map (rowFor e1 e2))
        (st.total_size1 + sumBy (fun n => (Entries.get e1 n).1) names)
        (st.total_size2 + sumBy (fun n => (Entries.get e2 n).1) names)
        (st.total_fc1 + sumBy (fun n => (Entries.get e1 n).2) names)
        (st.total_fc2 + sumBy (fun n => (Entries.get e2 n).2) names)
        (st.size_diff_count +
          countBy (fun n => decide ((Entries.get e1 n).1 ≠ (Entries.get e2 n).1)) names)
        (st.file_diff_count +
          countBy (fun n => decide ((Entries.get e1 n).2 ≠ (Entries.get e2 n).2)) names)
        (st.diff_count + countBy (nameDiff e1 e2) names) := by
  intro names
  induction names with
  | nil => intro st; simp [sumBy, countBy]
  | cons n ns ih =>
    intro st
    rw [List.foldl_cons, ih]
    simp only [step, BuildState.mk.injEq]
    refine ⟨?_, by simp [sumBy]; omega, by simp [sumBy]; omega, by simp [sumBy]; omega,
      by simp [sumBy]; omega, ?_, ?_, ?_⟩
    · by_cases hd : nameDiff e1 e2 n = true
      · have hcond : (od = false ∨
            (if (Entries.get e1 n).2 ≠ (Entries.get e2 n).2 ∨
              (Entries.get e1 n).1 ≠ (Entries.get e2 n).1 then "**" else "") ≠ "") := by
          right
          simp only [nameDiff, decide_eq_true_eq] at hd
          simp [hd]
        simp only [List.filter_cons, hd, Bool.or_true, if_pos hcond, ite_true]
        simp [rowFor, List.append_assoc]
      · have hd' : nameDiff e1 e2 n = false := by
          revert hd; cases nameDiff e1 e2 n <;> simp
        simp only [nameDiff, decide_eq_true_eq] at hd
        by_cases hod : od = false
        · have hcond : (od = false ∨
              (if (Entries.get e1 n).2 ≠ (Entries.get e2 n).2 ∨
                (Entries.get e1 n).1 ≠ (Entries.get e2 n).1 then "**" else "") ≠ "") :=
            Or.inl hod
          simp only [List.filter_cons, hd', hod, if_pos hcond, ite_true]
          simp [rowFor, hd, List.append_assoc]
        · have hodt : od = true := by revert hod; cases od <;> simp
          have hcond : ¬ (od = false ∨
              (if (Entries.get e1 n).2 ≠ (Entries.get e2 n).2 ∨
                (Entries.get e1 n).1 ≠ (Entries.get e2 n).1 then "**" else "") ≠ "") := by
            rw [hodt]
            simp [hd]
          simp [List.filter_cons, hd', hodt, if_neg hcond]
          push_neg at hd
          exact hd
    · by_cases h : (Entries.get e1 n).1 ≠ (Entries.get e2 n).1 <;>
        simp [countBy, h, Nat.add_assoc]
    · by_cases h : (Entries.get e1 n).2 ≠ (Entries.get e2 n).2 <;>
        simp [countBy, h, Nat.add_assoc]
    · by_cases h : nameDiff e1 e2 n = true
      · have hp : ((Entries.get e1 n).1 ≠ (Entries.get e2 n).1 ∨
            (Entries.get e1 n).2 ≠ (Entries.get e2 n).2) := by
          simp only [nameDiff, decide_eq_true_eq] at h
          exact h.symm
        simp [countBy, h, hp]
        omega
      · have h' : nameDiff e1 e2 n = false := by revert h; cases nameDiff e1 e2 n <;> simp
        have hp : ¬ ((Entries.get e1 n).1 ≠ (Entries.get e2 n).1 ∨
            (Entries.get e1 n).2 ≠ (Entries.get e2 n).2) := by
          simp only [nameDiff, decide_eq_false_iff_not] at h'
          intro hc
          exact h' hc.symm
        simp [countBy, h', hp]

/-- Closed form of `ComparisonData.build_data`. -/
theorem build_data_eq (e1 e2 : Entries) (od : Bool) :
    ComparisonData.build_data e1 e2 od =
      ((all_names e1 e2).filter (fun n => !od || nameDiff e1 e2 n)).map (rowFor e1 e2)
        ++ [DataRow.total
              (sumBy (fun n => (Entries.get e1 n).1) (all_names e1 e2))
              (sumBy (fun n => (Entries.get e2 n).1) (all_names e1 e2))
              (countBy (fun n => decide ((Entries.get e1 n).1 ≠ (Entries.get e2 n).1))
                (all_names e1 e2))
              (sumBy (fun n => (Entries.get e1 n).2) (all_names e1 e2))
              (sumBy (fun n => (Entries.get e2 n).2) (all_names e1 e2))
              (countBy (fun n => decide ((Entries.get e1 n).2 ≠ (Entries.get e2 n).2))
                (all_names e1 e2))
              (countBy (nameDiff e1 e2) (all_names e1 e2))] := by
  unfold ComparisonData.build_data
  rw [foldl_step_eq]
  simp [initState]

/-- Closed form of `build_comparison_data`: identical, except for the separator
row before `TOTAL`. -/
theorem build_comparison_data_eq (e1 e2 : Entries) (od : Bool) :
    build_comparison_data e1 e2 od =
      ((all_names e1 e2).filter (fun n => !od || nameDiff e1 e2 n)).map (rowFor e1 e2)
        ++ [DataRow.separator,
            DataRow.total
              (sumBy (fun n => (Entries.get e1 n).1) (all_names e1 e2))
              (sumBy (fun n => (Entries.get e2 n).1) (all_names e1 e2))
              (countBy (fun n => decide ((Entries.get e1 n).1 ≠ (Entries.get e2 n).1))
                (all_names e1 e2))
              (sumBy (fun n => (Entries.get e1 n).2) (all_names e1 e2))
              (sumBy (fun n => (Entries.get e2 n).2) (all_names e1 e2))
              (countBy (fun n => decide ((Entries.get e1 n).2 ≠ (Entries.get e2 n).2))
                (all_names e1 e2))
              (countBy (nameDiff e1 e2) (all_names e1 e2))] := by
  unfold build_comparison_data
  rw [foldl_step_eq]
  simp [initState]

/-!
## Properties of the sorted key union and of dict lookup
-/

theorem all_names_sorted (e1 e2 : Entries) : (all_names e1 e2).Pairwise NameLe := by
  haveI : IsTotal String NameLe := ⟨fun a b => strLeB_total a.data b.data⟩
  haveI : IsTrans String NameLe := ⟨fun a b c => strLeB_trans a.data b.data c.data⟩
  exact List.sorted_insertionSort NameLe _

theorem all_names_nodup (e1 e2 : Entries) : (all_names e1 e2).Nodup :=
  ((List.perm_insertionSort NameLe _).nodup_iff).mpr (List.nodup_dedup _)

theorem all_names_pairwise_lt (e1 e2 : Entries) : (all_names e1 e2).Pairwise NameLt :=
  ((all_names_sorted e1 e2).and (all_names_nodup e1 e2)).imp
    fun h => nameLt_of_le_of_ne h.1 h.2

theorem mem_all_names (e1 e2 : Entries) (n : String) :
    n ∈ all_names e1 e2 ↔ n ∈ Entries.keys e1 ∨ n ∈ Entries.keys e2 := by
  unfold all_names
  rw [(List.perm_insertionSort NameLe _).mem_iff, List.mem_dedup, List.mem_append]

theorem all_names_eq_of_perm {e1 e2 e1' e2' : Entries}
    (h1 : (Entries.keys e1).Perm (Entries.keys e1'))
    (h2 : (Entries.keys e2).Perm (Entries.keys e2')) :
    all_names e1 e2 = all_names e1' e2' := by
  haveI : IsTotal String NameLe := ⟨fun a b => strLeB_total a.data b.data⟩
  haveI : IsTrans String NameLe := ⟨fun a b c => strLeB_trans a.data b.data c.data⟩
  haveI : IsAntisymm String NameLe := ⟨fun a b hab hba => nameLe_antisymm hab hba⟩
  have hperm : (all_names e1 e2).Perm (all_names e1' e2') :=
    ((List.perm_insertionSort NameLe _).trans ((h1.append h2).dedup)).trans
      (List.perm_insertionSort NameLe _).symm
  exact List.eq_of_perm_of_sorted hperm
    (List.sorted_insertionSort NameLe _) (List.sorted_insertionSort NameLe _)

theorem find?_eq_some_iff_of_unique {α : Type} {p : α → Bool} {l : List α}
    (hu : ∀ x ∈ l, ∀ y ∈ l, p x = true → p y = true → x = y) (x : α) :
    l.find? p = some x ↔ x ∈ l ∧ p x = true := by
  constructor
  · intro h
    exact ⟨List.mem_of_find?_eq_some h, List.find?_some h⟩
  · rintro ⟨hm, hp⟩
    induction l with
    | nil => cases hm
    | cons a as ih =>
      by_cases ha : p a = true
      · rw [List.find?_cons_of_pos _ ha]
        rcases List.mem_cons.mp hm with h | hm'
        · rw [h]
        · exact congrArg some (hu a (List.mem_cons_self a as) x hm ha hp)
      · rw [List.find?_cons_of_neg _ ha]
        rcases List.mem_cons.mp hm with h | hm'
        · exact absurd (h ▸ hp) ha
        · exact ih (fun u hu1 v hv1 hpu hpv =>
            hu u (List.mem_cons_of_mem a hu1) v (List.mem_cons_of_mem a hv1) hpu hpv) hm'

theorem key_unique {β : Type} {l : List (String × β)} (hk : (l.map Prod.fst).Nodup) :
    ∀ x ∈ l, ∀ y ∈ l, x.1 = y.1 → x = y := by
  intro x hx y hy hxy
  by_contra hne
  have hpw : l.Pairwise (fun a b => a.1 ≠ b.1) := List.pairwise_map.mp hk
  have hsym : Symmetric (fun (a b : String × β) => a.1 ≠ b.1) :=
    fun a b h hab => h hab.symm
  exact List.Pairwise.forall hsym hpw hx hy hne hxy

theorem entries_key_unique {e : Entries} (hk : (Entries.keys e).Nodup) (name : String) :
    ∀ x ∈ (show List (String × (Nat × Nat)) from e),
      ∀ y ∈ (show List (String × (Nat × Nat)) from e),
        decide (x.1 = name) = true → decide (y.1 = name) = true → x = y := by
  intro x hx y hy hpx hpy
  simp only [decide_eq_true_eq] at hpx hpy
  exact key_unique hk x hx y hy (hpx.trans hpy.symm)

theorem get_of_mem {e : Entries} (hk : (Entries.keys e).Nodup) {name : String}
    {s c : Nat} (hm : (name, (s, c)) ∈ (show List (String × (Nat × Nat)) from e)) :
    Entries.get e name = (s, c) := by
  unfold Entries.get
  rw [(find?_eq_some_iff_of_unique (entries_key_unique hk name) (name, (s, c))).mpr
    ⟨hm, by simp⟩]

theorem get_of_not_mem_keys {e : Entries} {name : String}
    (h : name ∉ Entries.keys e) : Entries.get e name = (0, 0) := by
  unfold Entries.get
  have hnone : (show List (String × (Nat × Nat)) from e).find? (fun p => p.1 = name) = none := by
    rw [List.find?_eq_none]
    intro x hx
    simp only [decide_eq_true_eq]
    intro hx1
    exact h (hx1 ▸ List.mem_map_of_mem Prod.fst hx)
  rw [hnone]

theorem get_eq_of_perm {e e' : Entries}
    (h : (show List (String × (Nat × Nat)) from e).Perm e')
    (hk : (Entries.keys e).Nodup) (name : String) :
    Entries.get e name = Entries.get e' name := by
  have hk' : (Entries.keys e').Nodup := ((h.map Prod.fst).nodup_iff).mp hk
  unfold Entries.get
  cases hfind : (show List (String × (Nat × Nat)) from e).find? (fun p => p.1 = name) with
  | none =>
    have : (show List (String × (Nat × Nat)) from e').find? (fun p => p.1 = name) = none := by
      rw [List.find?_eq_none] at hfind ⊢
      intro x hx
      exact hfind x (h.mem_iff.mpr hx)
    rw [this]
  | some x =>
    have hx := (find?_eq_some_iff_of_unique (entries_key_unique hk name) x).mp hfind
    have : (show List (String × (Nat × Nat)) from e').find? (fun p => p.1 = name) = some x :=
      (find?_eq_some_iff_of_unique (entries_key_unique hk' name) x).mpr
        ⟨h.mem_iff.mp hx.1, hx.2⟩
    rw [this]

/-!
## Helper lemmas for the claim theorems
-/

theorem getLast?_append_singleton {α : Type} (l : List α) (a : α) :
    (l ++ [a]).getLast? = some a := by
  simp

theorem countBy_eq_zero {p : String → Bool} (h : ∀ n, p n = false) :
    ∀ l, countBy p l = 0 := by
  intro l
  induction l with
  | nil => rfl
  | cons n ns ih => simp [countBy, h n, ih]

theorem filterMap_entryName_append_total (l : List DataRow) (a b c d e f g : Nat) :
    (l ++ [DataRow.total a b c d e f g]).filterMap DataRow.entryName =
      l.filterMap DataRow.entryName := by
  simp [List.filterMap_append, DataRow.entryName]

theorem isEntry_rowFor (e1 e2 : Entries) (n : String) :
    (rowFor e1 e2 n).isEntry = true := rfl

theorem isSeparator_rowFor (e1 e2 : Entries) (n : String) :
    (rowFor e1 e2 n).isSeparator = false := rfl

theorem entryName_rowFor (e1 e2 : Entries) (n : String) :
    (rowFor e1 e2 n).entryName = some n := rfl

theorem filter_isEntry_total (a b c d e f g : Nat) :
    [DataRow.total a b c d e f g].filter DataRow.isEntry = [] := rfl

theorem filter_not_isSeparator_pair (a b c d e f g : Nat) :
    [DataRow.separator, DataRow.total a b c d e f g].filter (fun r => !r.isSeparator) =
      [DataRow.total a b c d e f g] := rfl

/-!
## Claim theorems
-/

/-- C3: for every pair of scan results and either flag value, the per-name row
sequence produced by `ComparisonData.build_data` is strictly ascending by
byte-wise (case-sensitive) comparison of the `Name` field (hence has no
duplicate names), and the output is the same regardless of the insertion
order of the two input mappings (any permutations of the association lists
with the usual unique-key property yield the identical data list). -/
theorem c3_rows_sorted_and_order_independent (e1 e2 : Entries) (od : Bool) :
    ((ComparisonData.build_data e1 e2 od).filterMap DataRow.entryName).Pairwise NameLt
    ∧ (∀ e1' e2' : Entries,
        (show List (String × (Nat × Nat)) from e1).Perm e1' →
        (show List (String × (Nat × Nat)) from e2).Perm e2' →
        (Entries.keys e1).Nodup → (Entries.keys e2).Nodup →
        ComparisonData.build_data e1 e2 od = ComparisonData.build_data e1' e2' od) := by
  constructor
  · rw [build_data_eq, filterMap_entryName_append_total, List.filterMap_map]
    have hname : (DataRow.entryName ∘ rowFor e1 e2) = some := funext fun n => rfl
    rw [hname, List.filterMap_some]
    exact List.Pairwise.sublist (List.filter_sublist _) (all_names_pairwise_lt e1 e2)
  · intro e1' e2' hp1 hp2 hk1 hk2
    have han : all_names e1 e2 = all_names e1' e2' :=
      all_names_eq_of_perm (hp1.map Prod.fst) (hp2.map Prod.fst)
    have hget1 : ∀ n, Entries.get e1 n = Entries.get e1' n := get_eq_of_perm hp1 hk1
    have hget2 : ∀ n, Entries.get e2 n = Entries.get e2' n := get_eq_of_perm hp2 hk2
    have hrow : rowFor e1 e2 = rowFor e1' e2' := by
      funext n
      simp only [rowFor, hget1 n, hget2 n]
    have hnd : nameDiff e1 e2 = nameDiff e1' e2' := by
      funext n
      simp only [nameDiff, hget1 n, hget2 n]
    have hf1 : (fun n => (Entries.get e1 n).1) = (fun n => (Entries.get e1' n).1) :=
      funext fun n => by rw [hget1 n]
    have hf2 : (fun n => (Entries.get e2 n).1) = (fun n => (Entries.get e2' n).1) :=
      funext fun n => by rw [hget2 n]
    have hf3 : (fun n => (Entries.get e1 n).2) = (fun n => (Entries.get e1' n).2) :=
      funext fun n => by rw [hget1 n]
    have hf4 : (fun n => (Entries.get e2 n).2) = (fun n => (Entries.get e2' n).2) :=
      funext fun n => by rw [hget2 n]
    have hd1 : (fun n => decide ((Entries.get e1 n).1 ≠ (Entries.get e2 n).1)) =
        (fun n => decide ((Entries.get e1' n).1 ≠ (Entries.get e2' n).1)) :=
      funext fun n => by rw [hget1 n, hget2 n]
    have hd2 : (fun n => decide ((Entries.get e1 n).2 ≠ (Entries.get e2 n).2)) =
        (fun n => decide ((Entries.get e1' n).2 ≠ (Entries.get e2' n).2)) :=
      funext fun n => by rw [hget1 n, hget2 n]
    rw [build_data_eq, build_data_eq, ← han, ← hrow, ← hnd, ← hf1, ← hf2, ← hf3, ← hf4,
      ← hd1, ← hd2]

/-- C3 witness: concrete instantiation; reordering the first mapping does not
change the output, and the row names are strictly ascending. -/
theorem c3_witness :
    ((ComparisonData.build_data [("b", (1, 1)), ("a", (2, 2))] [("c", (3, 3))]
        false).filterMap DataRow.entryName).Pairwise NameLt
    ∧ ComparisonData.build_data [("b", (1, 1)), ("a", (2, 2))] [("c", (3, 3))] false
        = ComparisonData.build_data [("a", (2, 2)), ("b", (1, 1))] [("c", (3, 3))] false :=
  ⟨(c3_rows_sorted_and_order_independent [("b", (1, 1)), ("a", (2, 2))] [("c", (3, 3))]
      false).1,
   (c3_rows_sorted_and_order_independent [("b", (1, 1)), ("a", (2, 2))] [("c", (3, 3))]
      false).2 [("a", (2, 2)), ("b", (1, 1))] [("c", (3, 3))]
      (List.Perm.swap ("a", (2, 2)) ("b", (1, 1)) [])
      (List.Perm.refl _) (by decide) (by decide)⟩

/-- C4: the `TOTAL` row (last element of the data list) is identical for
`only_diffs = true` and `only_diffs = false` on the same inputs - the totals
are accumulated over every name in the full union before filtering - and the
`only_diffs = true` per-name row sequence is exactly the subsequence of the
`only_diffs = false` rows with a truthy `DIFF` flag. -/
theorem c4_totals_filter_independent (e1 e2 : Entries) :
    (ComparisonData.build_data e1 e2 true).getLast? =
      (ComparisonData.build_data e1 e2 false).getLast?
    ∧ (ComparisonData.build_data e1 e2 true).filter DataRow.isEntry =
      ((ComparisonData.build_data e1 e2 false).filter DataRow.isEntry).filter
        DataRow.rowDiff := by
  constructor
  · rw [build_data_eq, build_data_eq, getLast?_append_singleton, getLast?_append_singleton]
  · have h1 : ∀ l : List String,
        (l.map (rowFor e1 e2)).filter DataRow.isEntry = l.map (rowFor e1 e2) := by
      intro l
      rw [List.filter_map]
      have hc : (DataRow.isEntry ∘ rowFor e1 e2) = fun _ => true := funext fun n => rfl
      rw [hc, List.filter_true]
    have h3 : ∀ l : List String,
        (l.map (rowFor e1 e2)).filter DataRow.rowDiff =
          (l.filter (nameDiff e1 e2)).map (rowFor e1 e2) := by
      intro l
      rw [List.filter_map]
      have hc : (DataRow.rowDiff ∘ rowFor e1 e2) = nameDiff e1 e2 :=
        funext (rowDiff_rowFor e1 e2)
      rw [hc]
    have hT : (fun n => !true || nameDiff e1 e2 n) = nameDiff e1 e2 :=
      funext fun n => by simp
    have hF : (fun n => !false || nameDiff e1 e2 n) = fun _ => true :=
      funext fun n => by simp
    rw [build_data_eq, build_data_eq, List.filter_append, List.filter_append,
      filter_isEntry_total, List.append_nil, List.append_nil, h1, h1, h3, hT, hF,
      List.filter_true]

/-- C6: for a name present in only one side of the comparison, the lookup on
the other side defaults to `(0, 0)`, in either direction.  When the name
maps to `(s, c)` in side 1 only, the produced row is
`(name, s, 0, ..., c, 0, ...)`; when it maps to `(s, c)` in side 2 only, the
row is `(name, 0, s, ..., 0, c, ...)`.  In both cases the row's `DIFF` flag
is truthy exactly when the present side's size or count is non-zero. -/
theorem c6_missing_side_defaults (e1 e2 : Entries) (name : String) (s c : Nat) :
    ((Entries.keys e1).Nodup →
      (name, (s, c)) ∈ (show List (String × (Nat × Nat)) from e1) →
      name ∉ Entries.keys e2 →
      Entries.get e2 name = (0, 0)
      ∧ DataRow.entry name s 0 (if s ≠ 0 then "*" else "") c 0 (if c ≠ 0 then "*" else "")
          (if c ≠ 0 ∨ s ≠ 0 then "**" else "") ∈ ComparisonData.build_data e1 e2 false
      ∧ (((if c ≠ 0 ∨ s ≠ 0 then "**" else "") ≠ "") ↔ (s ≠ 0 ∨ c ≠ 0)))
    ∧ ((Entries.keys e2).Nodup →
      (name, (s, c)) ∈ (show List (String × (Nat × Nat)) from e2) →
      name ∉ Entries.keys e1 →
      Entries.get e1 name = (0, 0)
      ∧ DataRow.entry name 0 s (if (0 : Nat) ≠ s then "*" else "") 0 c
          (if (0 : Nat) ≠ c then "*" else "")
          (if (0 : Nat) ≠ c ∨ (0 : Nat) ≠ s then "**" else "")
          ∈ ComparisonData.build_data e1 e2 false
      ∧ (((if (0 : Nat) ≠ c ∨ (0 : Nat) ≠ s then "**" else "") ≠ "") ↔
          (s ≠ 0 ∨ c ≠ 0))) := by
  constructor
  · intro hk1 hm habs
    have hget1 : Entries.get e1 name = (s, c) := get_of_mem hk1 hm
    have hget2 : Entries.get e2 name = (0, 0) := get_of_not_mem_keys habs
    refine ⟨hget2, ?_, ?_⟩
    · rw [build_data_eq]
      refine List.mem_append_left _ ?_
      have hrow : rowFor e1 e2 name =
          DataRow.entry name s 0 (if s ≠ 0 then "*" else "") c 0 (if c ≠ 0 then "*" else "")
            (if c ≠ 0 ∨ s ≠ 0 then "**" else "") := by
        simp only [rowFor, hget1, hget2]
      rw [← hrow]
      refine List.mem_map_of_mem (rowFor e1 e2) ?_
      rw [List.mem_filter]
      refine ⟨(mem_all_names e1 e2 name).mpr (Or.inl ?_), by simp⟩
      exact List.mem_map_of_mem Prod.fst hm
    · by_cases h : c ≠ 0 ∨ s ≠ 0
      · simp only [if_pos h]
        constructor
        · intro _
          exact h.symm
        · intro _
          decide
      · simp only [if_neg h]
        push_neg at h
        simp [h.1, h.2]
  · intro hk2 hm habs
    have hget2 : Entries.get e2 name = (s, c) := get_of_mem hk2 hm
    have hget1 : Entries.get e1 name = (0, 0) := get_of_not_mem_keys habs
    refine ⟨hget1, ?_, ?_⟩
    · rw [build_data_eq]
      refine List.mem_append_left _ ?_
      have hrow : rowFor e1 e2 name =
          DataRow.entry name 0 s (if (0 : Nat) ≠ s then "*" else "") 0 c
            (if (0 : Nat) ≠ c then "*" else "")
            (if (0 : Nat) ≠ c ∨ (0 : Nat) ≠ s then "**" else "") := by
        simp only [rowFor, hget1, hget2]
      rw [← hrow]
      refine List.mem_map_of_mem (rowFor e1 e2) ?_
      rw [List.mem_filter]
      refine ⟨(mem_all_names e1 e2 name).mpr (Or.inr ?_), by simp⟩
      exact List.mem_map_of_mem Prod.fst hm
    · by_cases h : (0 : Nat) ≠ c ∨ (0 : Nat) ≠ s
      · simp only [if_pos h]
        constructor
        · intro _
          rcases h with h | h
          · exact Or.inr (Ne.symm h)
          · exact Or.inl (Ne.symm h)
        · intro _
          decide
      · simp only [if_neg h]
        push_neg at h
        obtain ⟨hc0, hs0⟩ := h
        subst hc0
        subst hs0
        simp

/-- C6 witness: `"a"` maps to `(3, 1)` on side 1 only, and `"b"` maps to
`(4, 2)` on side 2 only. -/
theorem c6_witness :
    (Entries.get ([] : Entries) "a" = (0, 0)
      ∧ DataRow.entry "a" 3 0 (if (3 : Nat) ≠ 0 then "*" else "") 1 0
          (if (1 : Nat) ≠ 0 then "*" else "")
          (if (1 : Nat) ≠ 0 ∨ (3 : Nat) ≠ 0 then "**" else "")
          ∈ ComparisonData.build_data [("a", (3, 1))] [] false
      ∧ (((if (1 : Nat) ≠ 0 ∨ (3 : Nat) ≠ 0 then "**" else "") ≠ "") ↔
          ((3 : Nat) ≠ 0 ∨ (1 : Nat) ≠ 0)))
    ∧ (Entries.get ([] : Entries) "b" = (0, 0)
      ∧ DataRow.entry "b" 0 4 (if (0 : Nat) ≠ 4 then "*" else "") 0 2
          (if (0 : Nat) ≠ 2 then "*" else "")
          (if (0 : Nat) ≠ 2 ∨ (0 : Nat) ≠ 4 then "**" else "")
          ∈ ComparisonData.build_data [] [("b", (4, 2))] false
      ∧ (((if (0 : Nat) ≠ 2 ∨ (0 : Nat) ≠ 4 then "**" else "") ≠ "") ↔
          ((4 : Nat) ≠ 0 ∨ (2 : Nat) ≠ 0))) :=
  ⟨(c6_missing_side_defaults [("a", (3, 1))] [] "a" 3 1).1
      (by decide) (by decide) (by decide),
   (c6_missing_side_defaults [] [("b", (4, 2))] "b" 4 2).2
      (by decide) (by decide) (by decide)⟩

/-- C7: the comparison of two empty scan results succeeds and yields no
per-name rows and an all-zero `TOTAL` row, in both chksync.py and
chksync_func.py (both functions are total, so no failure mode exists). -/
theorem c7_empty_inputs (od : Bool) :
    ComparisonData.build_data [] [] od = [DataRow.total 0 0 0 0 0 0 0]
    ∧ build_comparison_data [] [] od =
        [DataRow.separator, DataRow.total 0 0 0 0 0 0 0] := by
  cases od <;> exact ⟨rfl, rfl⟩

/-- C8: comparing a scan result with itself yields no row with a truthy
`rowDiff` flag, and the `TOTAL` row has both diff-free totals columns equal
and all three diff counters (including `rowsWithAnyDiff`, the `DIFF` column)
equal to 0. -/
theorem c8_self_compare (e1 : Entries) (od : Bool) :
    (∀ r ∈ ComparisonData.build_data e1 e1 od, r.rowDiff = false)
    ∧ (∃ s f, (ComparisonData.build_data e1 e1 od).getLast? =
        some (DataRow.total s s 0 f f 0 0)) := by
  constructor
  · intro r hr
    rw [build_data_eq] at hr
    rcases List.mem_append.mp hr with h | h
    · rcases List.mem_map.mp h with ⟨n, _, rfl⟩
      rw [rowDiff_rowFor]
      simp [nameDiff]
    · rw [List.mem_singleton.mp h]
      rfl
  · refine ⟨sumBy (fun n => (Entries.get e1 n).1) (all_names e1 e1),
      sumBy (fun n => (Entries.get e1 n).2) (all_names e1 e1), ?_⟩
    rw [build_data_eq, getLast?_append_singleton]
    have hc1 : countBy (fun n => decide ((Entries.get e1 n).1 ≠ (Entries.get e1 n).1))
        (all_names e1 e1) = 0 := countBy_eq_zero (fun n => by simp) _
    have hc2 : countBy (fun n => decide ((Entries.get e1 n).2 ≠ (Entries.get e1 n).2))
        (all_names e1 e1) = 0 := countBy_eq_zero (fun n => by simp) _
    have hc3 : countBy (nameDiff e1 e1) (all_names e1 e1) = 0 :=
      countBy_eq_zero (fun n => by simp [nameDiff]) _
    rw [hc1, hc2, hc3]

/-- C9: the spec's concrete scenario.  Side A maps `x.txt` to `(5, 1)` and `d`
to `(10, 2)`; side B maps only `x.txt` to `(5, 1)`.  The output is exactly
the row for `d` (sizes 10/0, counts 2/0, all diff markers set), the row for
`x.txt` (5/5, 1/1, no markers), and the `TOTAL` row with total sizes 15/5,
total counts 3/1 and all three diff counters 1. -/
theorem c9_scenario :
    ComparisonData.build_data [("x.txt", (5, 1)), ("d", (10, 2))] [("x.txt", (5, 1))]
      false =
      [DataRow.entry "d" 10 0 "*" 2 0 "*" "**",
       DataRow.entry "x.txt" 5 5 "" 1 1 "" "",
       DataRow.total 15 5 1 3 1 1 1] := by
  decide

/-- C10 counterexample: on two empty mappings chksync.py's
`ComparisonData.build_data` returns only the `TOTAL` row while
chksync_func.py's `build_comparison_data` returns the separator row and the
`TOTAL` row, so the two row sequences are not equal. -/
theorem c10_counterexample :
    ComparisonData.build_data [] [] false ≠ build_comparison_data [] [] false := by
  decide

/-- C10 amended: for every pair of mappings and flag value the two
implementations agree except that `build_comparison_data` inserts one
decorative separator row before the `TOTAL` row: removing separator rows
from chksync_func.py's output yields exactly chksync.py's output. -/
theorem c10_equal_up_to_separator (e1 e2 : Entries) (od : Bool) :
    ComparisonData.build_data e1 e2 od =
      (build_comparison_data e1 e2 od).filter (fun r => !r.isSeparator) := by
  rw [build_data_eq, build_comparison_data_eq, List.filter_append,
    filter_not_isSeparator_pair, List.filter_map]
  have hc : ((fun r => !r.isSeparator) ∘ rowFor e1 e2) = fun _ => true :=
    funext fun n => rfl
  rw [hc, List.filter_true]

/-!
## Helper lemmas about the scanner
-/

theorem producesKey_of_skipped : ∀ c : FSNode,
    firstLevelSkipped c = true → producesKey c = false := by
  intro c
  cases c <;> simp [firstLevelSkipped, producesKey]

theorem produces_of_mem_keys_scanChildren : ∀ (l : List (String × FSNode)) (n : String),
    n ∈ Entries.keys (scanChildren l) → ∃ d, (n, d) ∈ l ∧ producesKey d = true := by
  intro l
  induction l with
  | nil => intro n h; cases h
  | cons hd rest ih =>
    intro n hmem
    obtain ⟨m, c⟩ := hd
    cases c with
    | file s ok =>
      cases ok with
      | false =>
        obtain ⟨d, hd', hp⟩ := ih n hmem
        exact ⟨d, List.mem_cons_of_mem _ hd', hp⟩
      | true =>
        rcases List.mem_cons.mp hmem with rfl | hmem'
        · exact ⟨FSNode.file s true, List.mem_cons_self _ _, rfl⟩
        · obtain ⟨d, hd', hp⟩ := ih n hmem'
          exact ⟨d, List.mem_cons_of_mem _ hd', hp⟩
    | dir cs b =>
      rcases List.mem_cons.mp hmem with rfl | hmem'
      · exact ⟨FSNode.dir cs b, List.mem_cons_self _ _, rfl⟩
      · obtain ⟨d, hd', hp⟩ := ih n hmem'
        exact ⟨d, List.mem_cons_of_mem _ hd', hp⟩
    | symlinkDir =>
      obtain ⟨d, hd', hp⟩ := ih n hmem
      exact ⟨d, List.mem_cons_of_mem _ hd', hp⟩
    | symlinkFile t =>
      obtain ⟨d, hd', hp⟩ := ih n hmem
      exact ⟨d, List.mem_cons_of_mem _ hd', hp⟩
    | symlinkBroken =>
      obtain ⟨d, hd', hp⟩ := ih n hmem
      exact ⟨d, List.mem_cons_of_mem _ hd', hp⟩
    | other s =>
      obtain ⟨d, hd', hp⟩ := ih n hmem
      exact ⟨d, List.mem_cons_of_mem _ hd', hp⟩

theorem keys_scanChildren_sublist : ∀ l : List (String × FSNode),
    (Entries.keys (scanChildren l)).Sublist (l.map Prod.fst) := by
  intro l
  induction l with
  | nil => exact List.Sublist.refl _
  | cons hd rest ih =>
    obtain ⟨m, c⟩ := hd
    cases c with
    | file s ok =>
      cases ok with
      | false => exact ih.cons m
      | true => exact ih.cons₂ m
    | dir cs b => exact ih.cons₂ m
    | symlinkDir => exact ih.cons m
    | symlinkFile t => exact ih.cons m
    | symlinkBroken => exact ih.cons m
    | other s => exact ih.cons m

theorem scanChildren_mem_of_mem_dir : ∀ (l : List (String × FSNode)) (n : String)
    (cs : List (String × FSNode)) (b : Bool), (n, FSNode.dir cs b) ∈ l →
    (n, (dirSize (FSNode.dir cs b), dirFileCount (FSNode.dir cs b))) ∈ scanChildren l := by
  intro l
  induction l with
  | nil => intro n cs b h; cases h
  | cons hd rest ih =>
    intro n cs b h
    obtain ⟨m, c⟩ := hd
    rcases List.mem_cons.mp h with heq | hmem
    · have h1 : n = m := congrArg Prod.fst heq
      have h2 : FSNode.dir cs b = c := congrArg Prod.snd heq
      subst h1
      subst h2
      exact List.mem_cons_self _ _
    · have htail := ih n cs b hmem
      cases c with
      | file s ok =>
        cases ok with
        | false => exact htail
        | true => exact List.mem_cons_of_mem _ htail
      | dir cs' b' => exact List.mem_cons_of_mem _ htail
      | symlinkDir => exact htail
      | symlinkFile t => exact htail
      | symlinkBroken => exact htail
      | other s => exact htail

/-- C1 counterexample: a first-level directory `d` containing one unreadable
file (`stat` fails) and one readable 100-byte file yields the Measurement
`(100, 2)` - not `(100, 1)` as the claim states - because `_get_file_count`
counts `len(files)` from the directory listing without `stat`-ing anything,
so the unreadable file is still counted. -/
theorem c1_counterexample :
    Entries.get ((FolderScanner.scan_folder
      (FSNode.dir [("d", FSNode.dir [("u", FSNode.file 50 false),
        ("r", FSNode.file 100 true)] true)] true)).getD []) "d" = (100, 2)
    ∧ ((100, 2) : Nat × Nat) ≠ (100, 1) := by
  decide

/-- C1 (amended): for a first-level directory entry whose subtree consists of
one unreadable file and one readable 100-byte file, the scan completes
without aborting and returns the Measurement `sizeBytes = 100` (the
unreadable file contributes no size) and `fileCount = 2` (the unreadable
file is still counted, since counting uses the directory listing only). -/
theorem c1_unreadable_file_scenario (dn n1 n2 : String) (bs : Nat) :
    FolderScanner.scan_folder
      (FSNode.dir [(dn, FSNode.dir [(n1, FSNode.file bs false),
        (n2, FSNode.file 100 true)] true)] true)
      = some [(dn, (100, 2))] := rfl

/-- C2 counterexample: a symlink to a 100-byte file inside a first-level
directory's subtree contributes to both aggregates of that entry: `os.walk`
lists it among `files` (so `_get_file_count` counts it) and
`os.path.getsize` follows the link (so `_get_dir_size` adds the target's
100 bytes).  The claim's "contributes to neither field" would require
`(0, 0)`; the scan returns `(100, 1)`. -/
theorem c2_counterexample :
    Entries.get ((FolderScanner.scan_folder
      (FSNode.dir [("d", FSNode.dir [("s", FSNode.symlinkFile 100)] true)] true)).getD [])
      "d" = (100, 1)
    ∧ ((100, 1) : Nat × Nat) ≠ (0, 0) := by
  decide

/-- C2 (amended): symlinks are never followed for recursion, and at the first
level symlinks and all other non-regular entries are excluded from the
result entirely; but inside a first-level directory's subtree every
non-directory entry is counted in `fileCount`, and resolvable file symlinks
(and other stat-able kinds) add their target's `st_size` to `sizeBytes`:
(1) a first-level child skipped by `else: continue` never appears among the
result's keys; (2) a symlink to a directory anywhere in a subtree
contributes nothing to either aggregate (never recursed into); (3) a symlink
to a `t`-byte file in a subtree contributes `t` bytes and count 1; (4) a
broken symlink contributes 0 bytes but count 1; (5) any other non-directory
entry kind (socket, device, fifo) contributes its stat-reported `st_size`
and count 1. -/
theorem c2_symlink_policy :
    (∀ (children : List (String × FSNode)) (name : String) (c : FSNode),
        (name, c) ∈ children → (children.map Prod.fst).Nodup →
        firstLevelSkipped c = true →
        name ∉ Entries.keys (scanChildren children))
    ∧ (∀ (l1 l2 : List (String × FSNode)) (name : String),
        dirSizeList (l1 ++ (name, FSNode.symlinkDir) :: l2) = dirSizeList (l1 ++ l2)
        ∧ dirFileCountList (l1 ++ (name, FSNode.symlinkDir) :: l2) =
            dirFileCountList (l1 ++ l2))
    ∧ (∀ (rest : List (String × FSNode)) (name : String) (t : Nat),
        dirSizeList ((name, FSNode.symlinkFile t) :: rest) = t + dirSizeList rest
        ∧ dirFileCountList ((name, FSNode.symlinkFile t) :: rest) =
            1 + dirFileCountList rest)
    ∧ (∀ (rest : List (String × FSNode)) (name : String),
        dirSizeList ((name, FSNode.symlinkBroken) :: rest) = dirSizeList rest
        ∧ dirFileCountList ((name, FSNode.symlinkBroken) :: rest) =
            1 + dirFileCountList rest)
    ∧ (∀ (rest : List (String × FSNode)) (name : String) (s : Nat),
        dirSizeList ((name, FSNode.other s) :: rest) = s + dirSizeList rest
        ∧ dirFileCountList ((name, FSNode.other s) :: rest) =
            1 + dirFileCountList rest) := by
  refine ⟨?_, ?_, ?_, ?_, ?_⟩
  · intro children name c hm hk hskip hmem
    obtain ⟨d, hd', hp⟩ := produces_of_mem_keys_scanChildren children name hmem
    have heq : (name, c) = (name, d) := key_unique hk (name, c) hm (name, d) hd' rfl
    have hcd : c = d := congrArg Prod.snd heq
    rw [← hcd, producesKey_of_skipped c hskip] at hp
    exact Bool.noConfusion hp
  · intro l1
    induction l1 with
    | nil =>
      intro l2 name
      constructor
      · simp [dirSizeList, sizeContrib, dirSize]
      · simp [dirFileCountList, isWalkNondir, dirFileCount]
    | cons hd rest ih =>
      intro l2 name
      obtain ⟨m, c⟩ := hd
      constructor
      · simp only [List.cons_append, dirSizeList, List.append_eq]
        rw [(ih l2 name).1]
      · simp only [List.cons_append, dirFileCountList, List.append_eq]
        rw [(ih l2 name).2]
  · intro rest name t
    constructor
    · simp [dirSizeList, sizeContrib, dirSize]
    · simp [dirFileCountList, isWalkNondir, dirFileCount]
  · intro rest name
    constructor
    · simp [dirSizeList, sizeContrib, dirSize]
    · simp [dirFileCountList, isWalkNondir, dirFileCount]
  · intro rest name s
    constructor
    · simp [dirSizeList, sizeContrib, dirSize]
    · simp [dirFileCountList, isWalkNondir, dirFileCount]

/-- C2 witness: a first-level file symlink is excluded from the result's keys;
a symlinked directory in a subtree contributes nothing; a subtree file
symlink contributes its target size; a subtree socket-like entry is counted. -/
theorem c2_witness :
    "s" ∉ Entries.keys (scanChildren [("s", FSNode.symlinkFile 5)])
    ∧ dirSizeList [("x", FSNode.symlinkDir)] = dirSizeList []
    ∧ dirSizeList [("a", FSNode.symlinkFile 7)] = 7 + dirSizeList []
    ∧ dirFileCountList [("sock", FSNode.other 0)] = 1 + dirFileCountList [] :=
  ⟨c2_symlink_policy.1 [("s", FSNode.symlinkFile 5)] "s" (FSNode.symlinkFile 5)
      (List.mem_singleton.mpr rfl) (by simp) rfl,
   (c2_symlink_policy.2.1 [] [] "x").1,
   (c2_symlink_policy.2.2.1 [] "a" 7).1,
   (c2_symlink_policy.2.2.2.2 [] "sock" 0).2⟩

/-- C5 counterexample: an access failure on an entry below the root is caught
and is not fatal, but the failing entry is not excluded from the aggregates:
a subtree file whose `stat` fails still adds 1 to the first-level entry's
`fileCount` (the claim's exclusion would require `(0, 0)`; the scan returns
`(0, 1)`). -/
theorem c5_counterexample :
    Entries.get ((FolderScanner.scan_folder
      (FSNode.dir [("d", FSNode.dir [("bad", FSNode.file 7 false)] true)] true)).getD [])
      "d" = (0, 1)
    ∧ ((0, 1) : Nat × Nat) ≠ (0, 0) := by
  decide

/-- C5 (amended): `scan_folder` fails (the exception propagates to the caller)
exactly when the root itself cannot be enumerated, i.e. for every non-symlink
root the scan returns a result iff the root is a directory whose listing
succeeds - per-entry failures below the root are never fatal; however a
failing entry is not always excluded: (2) a first-level regular file whose
`stat` fails is excluded from the result; (3) a first-level directory whose
own listing fails is included in the result - its pair `(name, (0, 0))`
appears in the returned dict, and the lookup yields `(0, 0)`; (4) a file
inside a subtree whose `stat` fails contributes nothing to the size but
still adds 1 to the count. -/
theorem c5_fatal_only_at_root :
    (∀ root : FSNode, root ≠ FSNode.symlinkDir →
        ((FolderScanner.scan_folder root).isSome = true ↔
          ∃ children, root = FSNode.dir children true))
    ∧ (∀ (children : List (String × FSNode)) (name : String) (s : Nat),
        (name, FSNode.file s false) ∈ children → (children.map Prod.fst).Nodup →
        name ∉ Entries.keys (scanChildren children))
    ∧ (∀ (children : List (String × FSNode)) (name : String)
        (cs : List (String × FSNode)),
        (name, FSNode.dir cs false) ∈ children → (children.map Prod.fst).Nodup →
        (name, ((0 : Nat), (0 : Nat))) ∈ scanChildren children
        ∧ Entries.get (scanChildren children) name = (0, 0))
    ∧ (∀ (rest : List (String × FSNode)) (name : String) (s : Nat),
        dirSizeList ((name, FSNode.file s false) :: rest) = dirSizeList rest
        ∧ dirFileCountList ((name, FSNode.file s false) :: rest) =
            1 + dirFileCountList rest) := by
  refine ⟨?_, ?_, ?_, ?_⟩
  · intro root hroot
    cases root with
    | file s ok => simp [FolderScanner.scan_folder]
    | dir children b =>
      cases b with
      | false => simp [FolderScanner.scan_folder]
      | true =>
        simp only [FolderScanner.scan_folder, Option.isSome_some, true_iff]
        exact ⟨children, rfl⟩
    | symlinkDir => exact absurd rfl hroot
    | symlinkFile t => simp [FolderScanner.scan_folder]
    | symlinkBroken => simp [FolderScanner.scan_folder]
    | other s => simp [FolderScanner.scan_folder]
  · intro children name s hm hk hmem
    obtain ⟨d, hd', hp⟩ := produces_of_mem_keys_scanChildren children name hmem
    have heq : (name, FSNode.file s false) = (name, d) :=
      key_unique hk (name, FSNode.file s false) hm (name, d) hd' rfl
    have hcd : FSNode.file s false = d := congrArg Prod.snd heq
    rw [← hcd] at hp
    exact Bool.noConfusion hp
  · intro children name cs hm hk
    have hmem2 : (name, (dirSize (FSNode.dir cs false), dirFileCount (FSNode.dir cs false)))
        ∈ scanChildren children := scanChildren_mem_of_mem_dir children name cs false hm
    have hkeys : (Entries.keys (scanChildren children)).Nodup :=
      (keys_scanChildren_sublist children).nodup hk
    exact ⟨hmem2, get_of_mem hkeys hmem2⟩
  · intro rest name s
    constructor
    · simp [dirSizeList, sizeContrib, dirSize]
    · simp [dirFileCountList, isWalkNondir, dirFileCount]

/-- C5 witness: concrete instantiations - scanning an empty readable root
succeeds; a first-level stat-failing file is excluded; an unenumerable
first-level directory is included in the result, recorded as `(0, 0)`. -/
theorem c5_witness :
    (FolderScanner.scan_folder (FSNode.dir [] true)).isSome = true
    ∧ "u" ∉ Entries.keys (scanChildren [("u", FSNode.file 9 false)])
    ∧ ("locked", ((0 : Nat), (0 : Nat))) ∈ scanChildren [("locked", FSNode.dir [] false)]
    ∧ Entries.get (scanChildren [("locked", FSNode.dir [] false)]) "locked" = (0, 0) :=
  ⟨(c5_fatal_only_at_root.1 (FSNode.dir [] true)
      (fun h => FSNode.noConfusion h)).mpr ⟨[], rfl⟩,
   c5_fatal_only_at_root.2.1 [("u", FSNode.file 9 false)] "u" 9
      (List.mem_singleton.mpr rfl) (by simp),
   (c5_fatal_only_at_root.2.2.1 [("locked", FSNode.dir [] false)] "locked" []
      (List.mem_singleton.mpr rfl) (by simp)).1,
   (c5_fatal_only_at_root.2.2.1 [("locked", FSNode.dir [] false)] "locked" []
      (List.mem_singleton.mpr rfl) (by simp)).2⟩

/-- C8 witness: in the self-comparison of a one-entry mapping, the produced
row for `"a"` has a falsy `rowDiff` flag. -/
theorem c8_witness :
    DataRow.rowDiff (DataRow.entry "a" 3 3 "" 1 1 "" "") = false :=
  (c8_self_compare [("a", (3, 1))] false).1 (DataRow.entry "a" 3 3 "" 1 1 "" "")
    (by decide)
